import Mathlib

/-!
Shallow embedding of `pkg/scraper/config.go`: the configuration-driven
scraper dispatch engine (loader, action resolver, capability projector,
URL dispatcher).  Go slices are modelled as `List`, nil-able pointers and
nil-able function values as `Option`, and a Go multi-value return
`(result, err)` as a pair `Option α × Option GoError`.  A Go runtime
panic is modelled as the `crash` outcome of `LoadResult`.
-/

namespace StashScraper

/-- Model of Go `error` values (opaque; only identity matters here). -/
abbrev GoError := String

/-- Opaque model of `models.ScrapedPerformer` (a pointer to it is `Option`). -/
structure ScrapedPerformer where
  data : String
deriving DecidableEq, Repr

/-- Opaque model of `models.ScrapedScene`. -/
structure ScrapedScene where
  data : String
deriving DecidableEq, Repr

/-- Opaque model of `models.ScrapedPerformerInput`. -/
structure ScrapedPerformerInput where
  data : String
deriving DecidableEq, Repr

/-- Opaque model of `models.SceneUpdateInput`. -/
structure SceneUpdateInput where
  data : String
deriving DecidableEq, Repr

/-- Model of `models.ScrapeType` (constants `ScrapeTypeName`,
`ScrapeTypeFragment`, `ScrapeTypeURL`). -/
inductive ScrapeType where
  | name : ScrapeType
  | fragment : ScrapeType
  | url : ScrapeType
deriving DecidableEq, Repr

/-- Model of `models.ScraperSpec`: supported scrape modes plus claimed URLs.
The Go zero value has both slices nil, i.e. `[]`. -/
structure ScraperSpec where
  SupportedScrapes : List ScrapeType
  Urls : List String
deriving DecidableEq, Repr

/-- Model of `models.Scraper`: the capability descriptor.  Nil pointer
fields `Performer`/`Scene` are `Option`. -/
structure Scraper where
  ID : String
  Name : String
  Performer : Option ScraperSpec
  Scene : Option ScraperSpec
deriving DecidableEq, Repr

/-- Go `type scraperAction string`. -/
abbrev scraperAction := String

/-- The only declared action constant, `scraperActionScript = "script"`. -/
def scraperActionScript : scraperAction := "script"

/-- Go `scraperAction.IsValid`: true exactly on the declared constants
(currently only `"script"`). -/
def scraperAction.IsValid (e : scraperAction) : Bool :=
  e == scraperActionScript

/-- Go `scraperTypeConfig`: the action tag plus its `script` parameter list. -/
structure scraperTypeConfig where
  Action : scraperAction
  Script : List String
deriving DecidableEq, Repr

/-- Go `strings.Contains(s, pat)`: `pat` occurs in `s` as a contiguous
substring.  Decidable, hence executable. -/
def strContains (s pat : String) : Bool :=
  decide (pat.toList <:+: s.toList)

/-- Go `scrapeByURLConfig`: an embedded `scraperTypeConfig` plus the list of
URL substrings to match. -/
structure scrapeByURLConfig where
  tc : scraperTypeConfig
  URL : List String
deriving DecidableEq, Repr

/-- Go `scrapeByURLConfig.matchesURL`: loop over `c.URL`, return true on the
first configured string contained in `url`. -/
def scrapeByURLConfig.matchesURL (c : scrapeByURLConfig) (url : String) : Bool :=
  c.URL.any (fun thisURL => strContains url thisURL)

/-- A handler function for one operation shape: Go function values of type
`func(c scraperTypeConfig, in) (res, error)`, returning a nil-able result
and a nil-able error. -/
abbrev handlerFn (β α : Type) := scraperTypeConfig → β → Option α × Option GoError

/-- Go `performerByNameConfig`: embedded type config plus the nil-able
bound handler `performScrape`. -/
structure performerByNameConfig where
  tc : scraperTypeConfig
  performScrape : Option (handlerFn String (List ScrapedPerformer))

/-- Go `performerByFragmentConfig`. -/
structure performerByFragmentConfig where
  tc : scraperTypeConfig
  performScrape : Option (handlerFn ScrapedPerformerInput ScrapedPerformer)

/-- Go `sceneByFragmentConfig`. -/
structure sceneByFragmentConfig where
  tc : scraperTypeConfig
  performScrape : Option (handlerFn SceneUpdateInput ScrapedScene)

/-- Common shape of Go `scrapePerformerByURLConfig` / `scrapeSceneByURLConfig`:
an embedded `scrapeByURLConfig` plus the nil-able bound handler. -/
structure urlRule (α : Type) where
  byURL : scrapeByURLConfig
  performScrape : Option (handlerFn String α)

/-- Go `scrapePerformerByURLConfig`. -/
abbrev scrapePerformerByURLConfig := urlRule ScrapedPerformer

/-- Go `scrapeSceneByURLConfig`. -/
abbrev scrapeSceneByURLConfig := urlRule ScrapedScene

/-- The package-level script-backed handlers (`scrapePerformerNamesScript`
and friends) are external collaborators defined outside this file's source;
they are passed in as an environment. -/
structure ScriptEnv where
  scrapePerformerNamesScript : handlerFn String (List ScrapedPerformer)
  scrapePerformerFragmentScript : handlerFn ScrapedPerformerInput ScrapedPerformer
  scrapePerformerURLScript : handlerFn String ScrapedPerformer
  scrapeSceneFragmentScript : handlerFn SceneUpdateInput ScrapedScene
  scrapeSceneURLScript : handlerFn String ScrapedScene

/-- Go `performerByNameConfig.resolveFn`: bind the script handler iff the
action tag equals `"script"`; otherwise leave the config unchanged. -/
def performerByNameConfig.resolveFn (env : ScriptEnv) (c : performerByNameConfig) :
    performerByNameConfig :=
  if c.tc.Action == scraperActionScript then
    { c with performScrape := some env.scrapePerformerNamesScript }
  else c

/-- Go `performerByFragmentConfig.resolveFn`. -/
def performerByFragmentConfig.resolveFn (env : ScriptEnv) (c : performerByFragmentConfig) :
    performerByFragmentConfig :=
  if c.tc.Action == scraperActionScript then
    { c with performScrape := some env.scrapePerformerFragmentScript }
  else c

/-- Go `sceneByFragmentConfig.resolveFn`. -/
def sceneByFragmentConfig.resolveFn (env : ScriptEnv) (c : sceneByFragmentConfig) :
    sceneByFragmentConfig :=
  if c.tc.Action == scraperActionScript then
    { c with performScrape := some env.scrapeSceneFragmentScript }
  else c

/-- Go `scrapePerformerByURLConfig.resolveFn`. -/
def resolvePerformerURLFn (env : ScriptEnv) (c : scrapePerformerByURLConfig) :
    scrapePerformerByURLConfig :=
  if c.byURL.tc.Action == scraperActionScript then
    { c with performScrape := some env.scrapePerformerURLScript }
  else c

/-- Go `scrapeSceneByURLConfig.resolveFn`. -/
def resolveSceneURLFn (env : ScriptEnv) (c : scrapeSceneByURLConfig) :
    scrapeSceneByURLConfig :=
  if c.byURL.tc.Action == scraperActionScript then
    { c with performScrape := some env.scrapeSceneURLScript }
  else c

/-- Go `scraperConfig`: the aggregate scraper definition. -/
structure scraperConfig where
  ID : String
  Name : String
  PerformerByName : Option performerByNameConfig
  PerformerByFragment : Option performerByFragmentConfig
  PerformerByURL : List scrapePerformerByURLConfig
  SceneByFragment : Option sceneByFragmentConfig
  SceneByURL : List scrapeSceneByURLConfig

/-- Go `scraperConfig.initialiseConfigs`: run the resolution pass over every
populated operation config. -/
def scraperConfig.initialiseConfigs (env : ScriptEnv) (c : scraperConfig) : scraperConfig :=
  { c with
    PerformerByName := c.PerformerByName.map (performerByNameConfig.resolveFn env)
    PerformerByFragment := c.PerformerByFragment.map (performerByFragmentConfig.resolveFn env)
    PerformerByURL := c.PerformerByURL.map (resolvePerformerURLFn env)
    SceneByFragment := c.SceneByFragment.map (sceneByFragmentConfig.resolveFn env)
    SceneByURL := c.SceneByURL.map (resolveSceneURLFn env) }

/-- Outcome of a load: success, a returned Go error, or a Go runtime panic
(`crash`), which a Go function cannot return as an error value. -/
inductive LoadResult (α : Type) where
  | ok : α → LoadResult α
  | error : GoError → LoadResult α
  | crash : String → LoadResult α

/-- Index of the last `'.'` in a character list (Go
`strings.LastIndex(s, ".")`, with `none` standing for Go's `-1`). -/
def lastDotIndex? : List Char → Option Nat
  | [] => none
  | c :: cs =>
    match lastDotIndex? cs with
    | some r => some (r + 1)
    | none => if c = '.' then some 0 else none

/-- Go `filepath.Base` on a unix path: strip trailing separators, keep the
text after the last separator; `""` gives `"."`, an all-separator path
gives `"/"`. -/
def filepathBase (path : String) : String :=
  if path = "" then "."
  else
    let cs := (path.toList.reverse.dropWhile (fun c => c == '/')).reverse
    let name := (cs.reverse.takeWhile (fun c => c != '/')).reverse
    if name = [] then "/" else String.mk name

/-- Go `loadScraperFromYAML`.  Opening the file and strictly decoding the
YAML are external (the yaml library); their outcome is the `decoded`
argument.  After a successful decode the id is derived with
`id = id[:strings.LastIndex(id, ".")]`: when no `'.'` exists, `LastIndex`
is `-1` and the Go slice expression `id[:-1]` panics at runtime, modelled
as `crash`.  Finally `initialiseConfigs` runs the resolution pass. -/
def loadScraperFromYAML (env : ScriptEnv) (path : String)
    (decoded : Except GoError scraperConfig) : LoadResult scraperConfig :=
  match decoded with
  | Except.error e => LoadResult.error e
  | Except.ok ret =>
    let id := filepathBase path
    match lastDotIndex? id.toList with
    | none => LoadResult.crash "runtime error: slice bounds out of range"
    | some i =>
      LoadResult.ok (scraperConfig.initialiseConfigs env
        { ret with ID := String.mk (id.toList.take i) })

/-- Go `scraperConfig.toScraper`: the capability projector.  The Go body
starts from zero-valued `ScraperSpec`s and appends modes/urls in a fixed
order, attaching a group to the result only when its mode list became
non-empty; the sequential mutations are modelled as shadowing lets. -/
def scraperConfig.toScraper (c : scraperConfig) : Scraper :=
  let ret : Scraper := { ID := c.ID, Name := c.Name, Performer := none, Scene := none }
  let performer : ScraperSpec := { SupportedScrapes := [], Urls := [] }
  let performer :=
    if c.PerformerByName.isSome then
      { performer with SupportedScrapes := performer.SupportedScrapes ++ [ScrapeType.name] }
    else performer
  let performer :=
    if c.PerformerByFragment.isSome then
      { performer with SupportedScrapes := performer.SupportedScrapes ++ [ScrapeType.fragment] }
    else performer
  let performer :=
    if c.PerformerByURL.length > 0 then
      { performer with
        SupportedScrapes := performer.SupportedScrapes ++ [ScrapeType.url]
        Urls := c.PerformerByURL.foldl (fun u v => u ++ v.byURL.URL) performer.Urls }
    else performer
  let ret :=
    if performer.SupportedScrapes.length > 0 then { ret with Performer := some performer }
    else ret
  let scene : ScraperSpec := { SupportedScrapes := [], Urls := [] }
  let scene :=
    if c.SceneByFragment.isSome then
      { scene with SupportedScrapes := scene.SupportedScrapes ++ [ScrapeType.fragment] }
    else scene
  let scene :=
    if c.SceneByURL.length > 0 then
      { scene with
        SupportedScrapes := scene.SupportedScrapes ++ [ScrapeType.url]
        Urls := c.SceneByURL.foldl (fun u v => u ++ v.byURL.URL) scene.Urls }
    else scene
  let ret :=
    if scene.SupportedScrapes.length > 0 then { ret with Scene := some scene }
    else ret
  ret

/-- Go `scraperConfig.supportsPerformers`. -/
def scraperConfig.supportsPerformers (c : scraperConfig) : Bool :=
  c.PerformerByName.isSome || c.PerformerByFragment.isSome ||
    decide (c.PerformerByURL.length > 0)

/-- Go `scraperConfig.supportsScenes`. -/
def scraperConfig.supportsScenes (c : scraperConfig) : Bool :=
  c.SceneByFragment.isSome || decide (c.SceneByURL.length > 0)

/-- Go `scraperConfig.matchesPerformerURL`: loop over the performer URL
rules, true on the first whose `matchesURL` holds. -/
def scraperConfig.matchesPerformerURL (c : scraperConfig) (url : String) : Bool :=
  c.PerformerByURL.any (fun scraper => scraper.byURL.matchesURL url)

/-- Go `scraperConfig.matchesSceneURL`. -/
def scraperConfig.matchesSceneURL (c : scraperConfig) (url : String) : Bool :=
  c.SceneByURL.any (fun scraper => scraper.byURL.matchesURL url)

/-- Go `scraperConfig.ScrapePerformerNames`: invoke the bound handler when
the block is populated and bound, otherwise `(nil, nil)`. -/
def scraperConfig.ScrapePerformerNames (c : scraperConfig) (name : String) :
    Option (List ScrapedPerformer) × Option GoError :=
  match c.PerformerByName with
  | some pbn =>
    match pbn.performScrape with
    | some f => f pbn.tc name
    | none => (none, none)
  | none => (none, none)

/-- Go `scraperConfig.ScrapePerformer`. -/
def scraperConfig.ScrapePerformer (c : scraperConfig)
    (scrapedPerformer : ScrapedPerformerInput) :
    Option ScrapedPerformer × Option GoError :=
  match c.PerformerByFragment with
  | some pbf =>
    match pbf.performScrape with
    | some f => f pbf.tc scrapedPerformer
    | none => (none, none)
  | none => (none, none)

/-- Go `scraperConfig.ScrapeScene`. -/
def scraperConfig.ScrapeScene (c : scraperConfig) (scene : SceneUpdateInput) :
    Option ScrapedScene × Option GoError :=
  match c.SceneByFragment with
  | some sbf =>
    match sbf.performScrape with
    | some f => f sbf.tc scene
    | none => (none, none)
  | none => (none, none)

/-- The shared loop body of Go `ScrapePerformerURL` / `ScrapeSceneURL`:
for each rule that matches and is bound, invoke; a returned error aborts
with `(nil, err)`; a non-nil result returns `(ret, nil)`; otherwise
continue; an exhausted list gives `(nil, nil)`. -/
def scrapeURLList {α : Type} : List (urlRule α) → String → Option α × Option GoError
  | [], _ => (none, none)
  | s :: rest, url =>
    match s.byURL.matchesURL url, s.performScrape with
    | true, some f =>
      let r := f s.byURL.tc url
      match r.2 with
      | some e => (none, some e)
      | none =>
        match r.1 with
        | some ret => (some ret, none)
        | none => scrapeURLList rest url
    | _, _ => scrapeURLList rest url

/-- Go `scraperConfig.ScrapePerformerURL`. -/
def scraperConfig.ScrapePerformerURL (c : scraperConfig) (url : String) :
    Option ScrapedPerformer × Option GoError :=
  scrapeURLList c.PerformerByURL url

/-- Go `scraperConfig.ScrapeSceneURL`. -/
def scraperConfig.ScrapeSceneURL (c : scraperConfig) (url : String) :
    Option ScrapedScene × Option GoError :=
  scrapeURLList c.SceneByURL url

/-! Spec-side definitions (for the refinement claims): these follow the
wording of the specification, to be compared with the source-derived
definitions above. -/

/-- Spec §4.3: the performer supported-mode set, built in the fixed order
name-presence, fragment-presence, url-list-non-emptiness. -/
def performerModes (c : scraperConfig) : List ScrapeType :=
  (if c.PerformerByName.isSome then [ScrapeType.name] else []) ++
  (if c.PerformerByFragment.isSome then [ScrapeType.fragment] else []) ++
  (if c.PerformerByURL.isEmpty then [] else [ScrapeType.url])

/-- Spec §4.3: every performer URL Rule's configured substrings, in
declaration order, rules concatenated in list order. -/
def performerUrls (c : scraperConfig) : List String :=
  (c.PerformerByURL.map (fun v => v.byURL.URL)).flatten

/-- Spec §4.3: the scene supported-mode set (fragment then url; no
by-name mode for scenes). -/
def sceneModes (c : scraperConfig) : List ScrapeType :=
  (if c.SceneByFragment.isSome then [ScrapeType.fragment] else []) ++
  (if c.SceneByURL.isEmpty then [] else [ScrapeType.url])

/-- Spec §4.3: every scene URL Rule's configured substrings concatenated. -/
def sceneUrls (c : scraperConfig) : List String :=
  (c.SceneByURL.map (fun v => v.byURL.URL)).flatten

/-- Spec §3/§4.3: the Capability Descriptor as the specification words it —
a capability group is included iff its supported-mode set is non-empty. -/
def specScraper (c : scraperConfig) : Scraper :=
  { ID := c.ID
    Name := c.Name
    Performer :=
      if performerModes c = [] then none
      else some { SupportedScrapes := performerModes c, Urls := performerUrls c }
    Scene :=
      if sceneModes c = [] then none
      else some { SupportedScrapes := sceneModes c, Urls := sceneUrls c } }

/-- Spec §4.4: the result of the first rule in declared order that matches
the url, has a bound handler, and yields a non-absent result. -/
def firstURLResult {α : Type} (l : List (urlRule α)) (url : String) : Option α :=
  l.findSome? (fun s =>
    match s.performScrape with
    | some f => if s.byURL.matchesURL url then (f s.byURL.tc url).1 else none
    | none => none)

/-! Concrete fixtures used by witnesses and counterexamples. -/

/-- A script environment whose handlers all yield an absent result. -/
def envNone : ScriptEnv :=
  { scrapePerformerNamesScript := fun _ _ => (none, none)
    scrapePerformerFragmentScript := fun _ _ => (none, none)
    scrapePerformerURLScript := fun _ _ => (none, none)
    scrapeSceneFragmentScript := fun _ _ => (none, none)
    scrapeSceneURLScript := fun _ _ => (none, none) }

/-- A minimal decoded body: valid, with no operation block populated. -/
def cfg0 : scraperConfig :=
  { ID := ""
    Name := "Example"
    PerformerByName := none
    PerformerByFragment := none
    PerformerByURL := []
    SceneByFragment := none
    SceneByURL := [] }

/-- A performer-by-name block declaring an unrecognized action tag. -/
def badActionBlock : performerByNameConfig :=
  { tc := { Action := "xml", Script := [] }, performScrape := none }

/-- A decoded body whose performer-by-name block has action `"xml"`. -/
def cfgBadAction : scraperConfig :=
  { cfg0 with PerformerByName := some badActionBlock }

/-- A URL handler that always yields an absent result. -/
def handlerAbsent : handlerFn String ScrapedPerformer :=
  fun _ _ => (none, none)

/-- A URL handler that always yields a performer. -/
def handlerHit : handlerFn String ScrapedPerformer :=
  fun _ _ => (some { data := "P" }, none)

/-- A URL handler that always fails. -/
def handlerBoom : handlerFn String ScrapedPerformer :=
  fun _ _ => (none, some "boom")

/-- URL rule matching `example.com/scene`, handler absent. -/
def ruleAbsent : scrapePerformerByURLConfig :=
  { byURL := { tc := { Action := "script", Script := [] }, URL := ["example.com/scene"] }
    performScrape := some handlerAbsent }

/-- URL rule matching `example.com`, handler yields a performer. -/
def ruleHit : scrapePerformerByURLConfig :=
  { byURL := { tc := { Action := "script", Script := [] }, URL := ["example.com"] }
    performScrape := some handlerHit }

/-- URL rule matching `example.com`, handler errors. -/
def ruleBoom : scrapePerformerByURLConfig :=
  { byURL := { tc := { Action := "script", Script := [] }, URL := ["example.com"] }
    performScrape := some handlerBoom }

/-- Definition with two performer URL rules: an earlier absent-yielding one
and a later hit. -/
def cfgTwoRules : scraperConfig :=
  { cfg0 with PerformerByURL := [ruleAbsent, ruleHit] }

/-- Definition whose second performer URL rule errors; a third rule follows. -/
def cfgErrRules : scraperConfig :=
  { cfg0 with PerformerByURL := [ruleAbsent, ruleBoom, ruleHit] }

/-- The definition obtained by loading `cfg0` from `"mysite.yml"`. -/
def cfgLoaded : scraperConfig :=
  scraperConfig.initialiseConfigs envNone { cfg0 with ID := "mysite" }

/-- A performer-by-name block with the script action. -/
def nameBlockScript : performerByNameConfig :=
  { tc := { Action := "script", Script := ["run"] }, performScrape := none }

/-- Definition with only performer-by-name populated. -/
def cfgNameOnly : scraperConfig :=
  { cfg0 with PerformerByName := some nameBlockScript }

/-! Helper lemmas shared by the claim theorems. -/

/-- `lastDotIndex?` finds nothing exactly when no dot occurs. -/
theorem lastDotIndex?_eq_none : ∀ cs : List Char, lastDotIndex? cs = none ↔ '.' ∉ cs := by
  intro cs
  induction cs with
  | nil => simp [lastDotIndex?]
  | cons c cs ih =>
    cases h : lastDotIndex? cs with
    | some r => simp [lastDotIndex?, h, (ih.not).mp (by simp [h])]
    | none =>
      by_cases hc : c = '.'
      · simp [lastDotIndex?, h, hc]
      · simp [lastDotIndex?, h, hc, Ne.symm hc, ih.mp h]

/-- When `lastDotIndex?` returns `i`, the list splits at a dot at position
`i` and no dot occurs after it. -/
theorem lastDotIndex?_spec :
    ∀ (cs : List Char) (i : Nat), lastDotIndex? cs = some i →
      cs = cs.take i ++ '.' :: cs.drop (i + 1) ∧ '.' ∉ cs.drop (i + 1) := by
  intro cs
  induction cs with
  | nil => intro i h; simp [lastDotIndex?] at h
  | cons c cs ih =>
    intro i h
    cases hr : lastDotIndex? cs with
    | some r =>
      have hi : i = r + 1 := by
        simp [lastDotIndex?, hr] at h
        omega
      subst hi
      obtain ⟨h1, h2⟩ := ih r hr
      constructor
      · simpa [List.take, List.drop] using congrArg (c :: ·) h1
      · simpa [List.drop] using h2
    | none =>
      by_cases hc : c = '.'
      · have hi : i = 0 := by simp [lastDotIndex?, hr, hc] at h; omega
        subst hi
        refine ⟨by simp [hc], ?_⟩
        simpa using (lastDotIndex?_eq_none cs).mp hr
      · simp [lastDotIndex?, hr, hc] at h

/-- The url-accumulating `foldl` in `toScraper` concatenates every rule's
configured substrings after the accumulator. -/
theorem foldl_urls_eq {α : Type} :
    ∀ (l : List (urlRule α)) (acc : List String),
      l.foldl (fun u v => u ++ v.byURL.URL) acc =
        acc ++ (l.map (fun v => v.byURL.URL)).flatten := by
  intro l
  induction l with
  | nil => simp
  | cons v l ih => intro acc; simp [List.foldl, ih]

/-- The source projector agrees with the spec-worded projector. -/
theorem toScraper_eq_spec (c : scraperConfig) : c.toScraper = specScraper c := by
  obtain ⟨id, nm, pbn, pbf, pbu, sbf, sbu⟩ := c
  cases pbn <;> cases pbf <;> cases pbu <;> cases sbf <;> cases sbu <;>
    simp [scraperConfig.toScraper, specScraper, performerModes, performerUrls,
      sceneModes, sceneUrls, foldl_urls_eq]

/-- Dispatch over a rule list, when no invoked handler errors, returns the
first non-absent result in declared order and no error. -/
theorem scrapeURLList_no_error {α : Type} (url : String) :
    ∀ l : List (urlRule α),
      (∀ s ∈ l, ∀ f, s.performScrape = some f → s.byURL.matchesURL url = true →
        (f s.byURL.tc url).2 = none) →
      scrapeURLList l url = (firstURLResult l url, none) := by
  intro l
  induction l with
  | nil => intro _; simp [scrapeURLList, firstURLResult]
  | cons s rest ih =>
    intro h
    have hrest := ih (fun r hr => h r (List.mem_cons_of_mem s hr))
    cases hps : s.performScrape with
    | none =>
      cases hm : s.byURL.matchesURL url <;>
        simp [scrapeURLList, firstURLResult, List.findSome?_cons, hps, hm, hrest]
    | some f =>
      cases hm : s.byURL.matchesURL url with
      | false =>
        simp only [scrapeURLList, hps, hm]
        simpa [firstURLResult, List.findSome?_cons, hps, hm] using hrest
      | true =>
        have h2 : (f s.byURL.tc url).2 = none := h s (List.mem_cons_self s rest) f hps hm
        cases hr1 : (f s.byURL.tc url).1 with
        | some ret =>
          simp [scrapeURLList, hps, hm, h2, hr1, firstURLResult, List.findSome?_cons]
        | none =>
          simp only [scrapeURLList, hps, hm, h2, hr1]
          simpa [firstURLResult, List.findSome?_cons, hps, hm, hr1] using hrest

/-- Dispatch over a rule list stops at the first matching bound rule whose
handler errors, returning that error, whatever rules follow. -/
theorem scrapeURLList_error {α : Type} (url : String) :
    ∀ (l₁ : List (urlRule α)) (s : urlRule α) (l₂ : List (urlRule α))
      (f : handlerFn String α) (e : GoError),
      (∀ r ∈ l₁, ∀ g, r.performScrape = some g → r.byURL.matchesURL url = true →
        g r.byURL.tc url = (none, none)) →
      s.byURL.matchesURL url = true → s.performScrape = some f →
      (f s.byURL.tc url).2 = some e →
      scrapeURLList (l₁ ++ s :: l₂) url = (none, some e) := by
  intro l₁
  induction l₁ with
  | nil =>
    intro s l₂ f e _ hm hf he
    simp [scrapeURLList, hm, hf, he]
  | cons r l₁ ih =>
    intro s l₂ f e h hm hf he
    have hr := h r (List.mem_cons_self r l₁)
    have htl := ih s l₂ f e (fun q hq => h q (List.mem_cons_of_mem r hq)) hm hf he
    cases hps : r.performScrape with
    | none => cases hmr : r.byURL.matchesURL url <;> simpa [scrapeURLList, hps, hmr] using htl
    | some g =>
      cases hmr : r.byURL.matchesURL url with
      | false => simpa [scrapeURLList, hps, hmr] using htl
      | true =>
        have hg := hr g hps hmr
        simpa [scrapeURLList, hps, hmr, hg] using htl

/-! Claim theorems. -/

/-- C1: on a source path whose base filename contains no dot, with an
otherwise valid decoded body, the loader does not return a ConfigError:
`strings.LastIndex` yields `-1` and the Go slice expression `id[:-1]`
panics, crashing the load. -/
theorem c1_load_crashes_without_dot :
    loadScraperFromYAML envNone "mysite" (Except.ok cfg0) =
      LoadResult.crash "runtime error: slice bounds out of range" := rfl

/-- C2 counterexample: a source declaring the unrecognized action tag
`"xml"` in its performer-by-name block is not rejected — the load
succeeds. -/
theorem c2_unrecognized_action_load_succeeds :
    scraperAction.IsValid badActionBlock.tc.Action = false ∧
    loadScraperFromYAML envNone "test.yml" (Except.ok cfgBadAction) =
      LoadResult.ok { cfgBadAction with ID := "test" } :=
  ⟨rfl, rfl⟩

/-- C2 (amended): a source declaring an action tag other than `"script"`
in an operation block is never rejected by the load; the block reaches its
`resolveFn`, and every `resolveFn` leaves a config with a non-script
action tag unchanged, so its handler stays unbound. -/
theorem c2_unrecognized_action_not_rejected :
    (∀ (env : ScriptEnv) (path : String) (cfg : scraperConfig) (e : GoError),
      loadScraperFromYAML env path (Except.ok cfg) ≠ LoadResult.error e) ∧
    (∀ (env : ScriptEnv) (path : String) (cfg : scraperConfig)
        (p : performerByNameConfig) (i : Nat),
      lastDotIndex? (filepathBase path).toList = some i →
      cfg.PerformerByName = some p →
      ∃ c', loadScraperFromYAML env path (Except.ok cfg) = LoadResult.ok c' ∧
        c'.PerformerByName = some (performerByNameConfig.resolveFn env p)) ∧
    (∀ (env : ScriptEnv) (c : performerByNameConfig),
      c.tc.Action ≠ scraperActionScript → performerByNameConfig.resolveFn env c = c) ∧
    (∀ (env : ScriptEnv) (c : performerByFragmentConfig),
      c.tc.Action ≠ scraperActionScript → performerByFragmentConfig.resolveFn env c = c) ∧
    (∀ (env : ScriptEnv) (c : sceneByFragmentConfig),
      c.tc.Action ≠ scraperActionScript → sceneByFragmentConfig.resolveFn env c = c) ∧
    (∀ (env : ScriptEnv) (c : scrapePerformerByURLConfig),
      c.byURL.tc.Action ≠ scraperActionScript → resolvePerformerURLFn env c = c) ∧
    (∀ (env : ScriptEnv) (c : scrapeSceneByURLConfig),
      c.byURL.tc.Action ≠ scraperActionScript → resolveSceneURLFn env c = c) := by
  refine ⟨?_, ?_, ?_, ?_, ?_, ?_, ?_⟩
  · intro env path cfg e h
    cases hli : lastDotIndex? (filepathBase path).data <;>
      simp [loadScraperFromYAML, String.toList, hli] at h
  · intro env path cfg p i hli hp
    simp only [String.toList] at hli
    refine ⟨scraperConfig.initialiseConfigs env
      { cfg with ID := String.mk ((filepathBase path).data.take i) }, ?_, ?_⟩
    · simp [loadScraperFromYAML, String.toList, hli]
    · simp [scraperConfig.initialiseConfigs, hp]
  · intro env c h; simp [performerByNameConfig.resolveFn, h]
  · intro env c h; simp [performerByFragmentConfig.resolveFn, h]
  · intro env c h; simp [sceneByFragmentConfig.resolveFn, h]
  · intro env c h; simp [resolvePerformerURLFn, h]
  · intro env c h; simp [resolveSceneURLFn, h]

/-- C2 witness: the resolution pass applied to a block with action
`"xml"` leaves it unchanged. -/
theorem c2_unrecognized_action_not_rejected_witness :
    performerByNameConfig.resolveFn envNone badActionBlock = badActionBlock :=
  c2_unrecognized_action_not_rejected.2.2.1 envNone badActionBlock (by decide)

/-- C3: when no invoked handler errors, URL dispatch returns the result of
the first rule in declared order that matches, is bound, and yields a
non-absent result; matching rules yielding absent fall through; if no rule
matches or all matching rules yield absent, the result is absent with no
error. -/
theorem c3_url_dispatch_first_non_absent :
    ∀ (c : scraperConfig) (url : String),
      ((∀ s ∈ c.PerformerByURL, ∀ f, s.performScrape = some f →
          s.byURL.matchesURL url = true → (f s.byURL.tc url).2 = none) →
        c.ScrapePerformerURL url = (firstURLResult c.PerformerByURL url, none)) ∧
      ((∀ s ∈ c.SceneByURL, ∀ f, s.performScrape = some f →
          s.byURL.matchesURL url = true → (f s.byURL.tc url).2 = none) →
        c.ScrapeSceneURL url = (firstURLResult c.SceneByURL url, none)) := by
  intro c url
  exact ⟨fun h => scrapeURLList_no_error url c.PerformerByURL h,
         fun h => scrapeURLList_no_error url c.SceneByURL h⟩

/-- C3 witness: with an earlier matching rule yielding absent and a later
matching rule yielding a result, dispatch returns the first non-absent
result. -/
theorem c3_url_dispatch_first_non_absent_witness :
    cfgTwoRules.ScrapePerformerURL "https://example.com/scene/123" =
      (firstURLResult cfgTwoRules.PerformerByURL "https://example.com/scene/123", none) := by
  apply (c3_url_dispatch_first_non_absent cfgTwoRules "https://example.com/scene/123").1
  intro s hs f hf _
  have hs2 : s = ruleAbsent ∨ s = ruleHit := by
    simpa [cfgTwoRules, cfg0] using hs
  rcases hs2 with rfl | rfl
  · simp only [ruleAbsent] at hf
    cases hf
    rfl
  · simp only [ruleHit] at hf
    cases hf
    rfl

/-- C4: a handler error during URL dispatch short-circuits: the same error
is returned and the rules after the erroring one are irrelevant. -/
theorem c4_url_dispatch_error_short_circuits :
    ∀ (c : scraperConfig) (url : String),
      (∀ (l₁ : List scrapePerformerByURLConfig) (s : scrapePerformerByURLConfig)
          (l₂ : List scrapePerformerByURLConfig)
          (f : handlerFn String ScrapedPerformer) (e : GoError),
        c.PerformerByURL = l₁ ++ s :: l₂ →
        (∀ r ∈ l₁, ∀ g, r.performScrape = some g → r.byURL.matchesURL url = true →
          g r.byURL.tc url = (none, none)) →
        s.byURL.matchesURL url = true → s.performScrape = some f →
        (f s.byURL.tc url).2 = some e →
        c.ScrapePerformerURL url = (none, some e)) ∧
      (∀ (l₁ : List scrapeSceneByURLConfig) (s : scrapeSceneByURLConfig)
          (l₂ : List scrapeSceneByURLConfig)
          (f : handlerFn String ScrapedScene) (e : GoError),
        c.SceneByURL = l₁ ++ s :: l₂ →
        (∀ r ∈ l₁, ∀ g, r.performScrape = some g → r.byURL.matchesURL url = true →
          g r.byURL.tc url = (none, none)) →
        s.byURL.matchesURL url = true → s.performScrape = some f →
        (f s.byURL.tc url).2 = some e →
        c.ScrapeSceneURL url = (none, some e)) := by
  intro c url
  constructor
  · intro l₁ s l₂ f e hsplit h hm hf he
    show scrapeURLList c.PerformerByURL url = (none, some e)
    rw [hsplit]
    exact scrapeURLList_error url l₁ s l₂ f e h hm hf he
  · intro l₁ s l₂ f e hsplit h hm hf he
    show scrapeURLList c.SceneByURL url = (none, some e)
    rw [hsplit]
    exact scrapeURLList_error url l₁ s l₂ f e h hm hf he

/-- C4 witness: the second rule matches and errors; the error comes back
unchanged even though a later rule would have yielded a result. -/
theorem c4_url_dispatch_error_short_circuits_witness :
    cfgErrRules.ScrapePerformerURL "https://example.com/scene/123" = (none, some "boom") := by
  apply (c4_url_dispatch_error_short_circuits cfgErrRules "https://example.com/scene/123").1
    [ruleAbsent] ruleBoom [ruleHit] handlerBoom "boom"
  · rfl
  · intro r hr g hg _
    have hr2 : r = ruleAbsent := by simpa using hr
    subst hr2
    simp only [ruleAbsent] at hg
    cases hg
    rfl
  · decide
  · rfl
  · rfl

/-- C5: the list-level URL membership tests are true exactly when the
candidate contains some rule's configured substring, independent of any
handler; an empty rule list never matches. -/
theorem c5_matchesURL_iff_substring :
    ∀ (c : scraperConfig) (url : String),
      (c.matchesPerformerURL url = true ↔
        ∃ r ∈ c.PerformerByURL, ∃ u ∈ r.byURL.URL, u.toList <:+: url.toList) ∧
      (c.matchesSceneURL url = true ↔
        ∃ r ∈ c.SceneByURL, ∃ u ∈ r.byURL.URL, u.toList <:+: url.toList) := by
  intro c url
  constructor <;>
    simp [scraperConfig.matchesPerformerURL, scraperConfig.matchesSceneURL,
      scrapeByURLConfig.matchesURL, strContains, List.any_eq_true]

/-- C6: the name- and fragment-keyed dispatchers return absent with no
error when the block is unpopulated or its handler unbound, and propagate
the bound handler's output verbatim otherwise. -/
theorem c6_fragment_dispatch_unbound_no_op :
    ∀ c : scraperConfig,
      (∀ n : String,
        (c.PerformerByName = none ∨
          ∃ p, c.PerformerByName = some p ∧ p.performScrape = none) →
        c.ScrapePerformerNames n = (none, none)) ∧
      (∀ (p : performerByNameConfig) (f : handlerFn String (List ScrapedPerformer))
          (n : String),
        c.PerformerByName = some p → p.performScrape = some f →
        c.ScrapePerformerNames n = f p.tc n) ∧
      (∀ i : ScrapedPerformerInput,
        (c.PerformerByFragment = none ∨
          ∃ p, c.PerformerByFragment = some p ∧ p.performScrape = none) →
        c.ScrapePerformer i = (none, none)) ∧
      (∀ (p : performerByFragmentConfig)
          (f : handlerFn ScrapedPerformerInput ScrapedPerformer)
          (i : ScrapedPerformerInput),
        c.PerformerByFragment = some p → p.performScrape = some f →
        c.ScrapePerformer i = f p.tc i) ∧
      (∀ s : SceneUpdateInput,
        (c.SceneByFragment = none ∨
          ∃ p, c.SceneByFragment = some p ∧ p.performScrape = none) →
        c.ScrapeScene s = (none, none)) ∧
      (∀ (p : sceneByFragmentConfig) (f : handlerFn SceneUpdateInput ScrapedScene)
          (s : SceneUpdateInput),
        c.SceneByFragment = some p → p.performScrape = some f →
        c.ScrapeScene s = f p.tc s) := by
  intro c
  refine ⟨?_, ?_, ?_, ?_, ?_, ?_⟩
  · rintro n (h | ⟨p, hp, hps⟩) <;> simp [scraperConfig.ScrapePerformerNames, *]
  · intro p f n hp hps; simp [scraperConfig.ScrapePerformerNames, hp, hps]
  · rintro i (h | ⟨p, hp, hps⟩) <;> simp [scraperConfig.ScrapePerformer, *]
  · intro p f i hp hps; simp [scraperConfig.ScrapePerformer, hp, hps]
  · rintro s (h | ⟨p, hp, hps⟩) <;> simp [scraperConfig.ScrapeScene, *]
  · intro p f s hp hps; simp [scraperConfig.ScrapeScene, hp, hps]

/-- C6 witness: a definition with no performer-by-name block dispatches to
absent with no error. -/
theorem c6_fragment_dispatch_unbound_no_op_witness :
    cfg0.ScrapePerformerNames "alice" = (none, none) :=
  (c6_fragment_dispatch_unbound_no_op cfg0).1 "alice" (Or.inl rfl)

/-- C7: a capability group appears in the projection exactly when its
supported-mode set is non-empty, and never with an empty mode set; a
definition with only performer-by-name populated projects no scene
group. -/
theorem c7_capability_group_iff_nonempty :
    ∀ c : scraperConfig,
      (∀ s, c.toScraper.Performer = some s → s.SupportedScrapes ≠ []) ∧
      (∀ s, c.toScraper.Scene = some s → s.SupportedScrapes ≠ []) ∧
      (c.toScraper.Performer = none ↔ performerModes c = []) ∧
      (c.toScraper.Scene = none ↔ sceneModes c = []) ∧
      (c.PerformerByName.isSome = true → c.PerformerByFragment = none →
        c.PerformerByURL = [] → c.SceneByFragment = none → c.SceneByURL = [] →
        c.toScraper.Scene = none ∧ c.toScraper.Performer.isSome = true) := by
  intro c
  have h := toScraper_eq_spec c
  refine ⟨?_, ?_, ?_, ?_, ?_⟩
  · intro s hs
    rw [h] at hs
    by_cases hm : performerModes c = []
    · simp [specScraper, hm] at hs
    · simp [specScraper, hm] at hs
      subst hs
      simpa using hm
  · intro s hs
    rw [h] at hs
    by_cases hm : sceneModes c = []
    · simp [specScraper, hm] at hs
    · simp [specScraper, hm] at hs
      subst hs
      simpa using hm
  · rw [h]
    by_cases hm : performerModes c = [] <;> simp [specScraper, hm]
  · rw [h]
    by_cases hm : sceneModes c = [] <;> simp [specScraper, hm]
  · intro h1 h2 h3 h4 h5
    rw [h]
    simp [specScraper, performerModes, sceneModes, h1, h2, h3, h4, h5]

/-- C7 witness: a definition with only performer-by-name populated has an
absent scene group and a present performer group. -/
theorem c7_capability_group_iff_nonempty_witness :
    cfgNameOnly.toScraper.Scene = none ∧ cfgNameOnly.toScraper.Performer.isSome = true :=
  (c7_capability_group_iff_nonempty cfgNameOnly).2.2.2.2 rfl rfl rfl rfl rfl

/-- C8: the source projector equals the spec-worded projector — mode sets
reflect exactly which blocks are populated, in the fixed order, and the
urls sequence concatenates every rule's configured substrings in order. -/
theorem c8_projection_reflects_blocks :
    ∀ c : scraperConfig, c.toScraper = specScraper c :=
  toScraper_eq_spec

/-- C9: every successful load derives the id as the base filename up to,
but excluding, the last dot: the base filename is the id, a dot, and a
dot-free remainder. -/
theorem c9_id_is_filename_stem :
    ∀ (env : ScriptEnv) (path : String) (decoded : Except GoError scraperConfig)
      (c : scraperConfig),
      loadScraperFromYAML env path decoded = LoadResult.ok c →
      ∃ ext : List Char,
        (filepathBase path).toList = c.ID.toList ++ '.' :: ext ∧ '.' ∉ ext := by
  intro env path decoded c h
  cases decoded with
  | error e => simp [loadScraperFromYAML] at h
  | ok ret =>
    cases hli : lastDotIndex? (filepathBase path).data with
    | none => simp [loadScraperFromYAML, String.toList, hli] at h
    | some i =>
      simp only [loadScraperFromYAML, String.toList, hli, LoadResult.ok.injEq] at h
      obtain ⟨h1, h2⟩ := lastDotIndex?_spec _ i hli
      refine ⟨(filepathBase path).data.drop (i + 1), ?_, h2⟩
      have hid : c.ID = String.mk ((filepathBase path).data.take i) := by
        rw [← h]; rfl
      simp only [String.toList]
      rw [hid]
      exact h1

/-- C9 witness: loading `mysite.yml` yields id `"mysite"`, i.e. the base
filename splits as the id, a dot, and a dot-free extension. -/
theorem c9_id_is_filename_stem_witness :
    ∃ ext : List Char,
      (filepathBase "mysite.yml").toList = cfgLoaded.ID.toList ++ '.' :: ext ∧ '.' ∉ ext :=
  c9_id_is_filename_stem envNone "mysite.yml" (Except.ok cfg0) cfgLoaded rfl

/-- C10: the support predicates agree with the projector: a definition
supports performers (scenes) exactly when its projected descriptor has a
performer (scene) capability group. -/
theorem c10_supports_agrees_with_projection :
    ∀ c : scraperConfig,
      c.supportsPerformers = c.toScraper.Performer.isSome ∧
      c.supportsScenes = c.toScraper.Scene.isSome := by
  intro c
  rw [toScraper_eq_spec]
  obtain ⟨id, nm, pbn, pbf, pbu, sbf, sbu⟩ := c
  cases pbn <;> cases pbf <;> cases pbu <;> cases sbf <;> cases sbu <;>
    simp [scraperConfig.supportsPerformers, scraperConfig.supportsScenes,
      specScraper, performerModes, sceneModes]

end StashScraper
